import Mathlib

/-!
Shallow embedding of the CUDA matrix-multiplication demo
(`src/matmult.cu`, its header, and `tests/test00.cu`).

Modelling conventions:
* `float` values are idealised as rational numbers `ℚ`.
* The `float* elements` pointer of a descriptor is modelled as a backing
  store `buf : Nat → ℚ` together with an offset `off : Nat`; pointer
  arithmetic (`&A.elements[k]`) becomes addition on `off`, and aliasing a
  parent's buffer is sharing the same `buf`.
* The ownership pointers `elements_malloc` / `elements_cudaMalloc` of the
  `Mat` struct are modelled by booleans recording whether they are non-NULL.
* An assertion (`assert(...)`) is modelled by returning an `Option`:
  `none` is the assertion firing.
* A CUDA kernel launch is modelled as a fold of the per-thread body over
  the list of all (blockIdx.y, blockIdx.x, threadIdx.y, threadIdx.x)
  tuples of the grid; since every thread of these kernels writes to a
  distinct output cell, this serial fold is the denotation of the
  launch.  The shared-memory tiles of the optimised kernel are modelled
  by their contents after the staging barrier (`sharedTile`).
-/

/-- The `Mat` / `Matrix` descriptor struct: `height`, `width`, `stride`,
`size` (in bytes) as in the source; `(off, buf)` models the `elements`
pointer; the two booleans model non-NULLness of the ownership pointers
`elements_malloc` and `elements_cudaMalloc`. -/
structure Mat where
  width : Nat
  height : Nat
  size : Nat
  stride : Nat
  off : Nat
  buf : Nat → ℚ
  elements_malloc : Bool
  elements_cudaMalloc : Bool

/-- `sizeof(float)` -/
def sizeofFloat : Nat := 4

/-- Thread block size: `#define BLOCK_SIZE 4`. -/
def BLOCK_SIZE : Nat := 4

/-- `MatInit`: sets `height`, `width`, `stride = width`,
`size = height*width*sizeof(float)` and NULLs all element pointers
(a NULL `elements` pointer is modelled as offset 0 into a zero store). -/
def MatInit (height width : Nat) : Mat :=
  { height := height
    width := width
    stride := width
    size := height * width * sizeofFloat
    off := 0
    buf := fun _ => 0
    elements_malloc := false
    elements_cudaMalloc := false }

/-- `MatInitHost`: `MatInit` followed by `malloc` and `memset 0`
(the freshly allocated, zeroed buffer is the all-zero store). -/
def MatInitHost (height width : Nat) : Mat :=
  { MatInit height width with elements_malloc := true }

/-- `MatInitGPU`: `MatInit` followed by `cudaMalloc` and `cudaMemset 0`. -/
def MatInitGPU (height width : Nat) : Mat :=
  { MatInit height width with elements_cudaMalloc := true }

/-- `GetElement` / `MatGetElement`: `A.elements[r * A.stride + c]`. -/
def GetElement (A : Mat) (r c : Nat) : ℚ :=
  A.buf (A.off + r * A.stride + c)

/-- `SetElement` / `MatSetElement`: `A.elements[r * A.stride + c] = value`. -/
def SetElement (A : Mat) (r c : Nat) (value : ℚ) : Mat :=
  { A with buf := Function.update A.buf (A.off + r * A.stride + c) value }

/-- `GetSubMatrix` (matmult.cu): a fresh `blockSize × blockSize` descriptor
whose `stride` is the parent's and whose `elements` pointer is
`&A.elements[R * A.stride * blockSize + C * blockSize]`. -/
def GetSubMatrix (A : Mat) (R C blockSize : Nat) : Mat :=
  { MatInit blockSize blockSize with
    stride := A.stride
    off := A.off + (R * A.stride * blockSize + C * blockSize)
    buf := A.buf }

/-- `MatGetSubMatrix` (header): asserts the target descriptor owns no
buffer (`Asub->elements_cudaMalloc == NULL && Asub->elements_malloc == NULL`),
then aliases its `stride` and `elements` into the parent.  The assertion
firing is `none`. -/
def MatGetSubMatrix (A : Mat) (R C blockSize : Nat) (Asub : Mat) : Option Mat :=
  if Asub.elements_cudaMalloc = false ∧ Asub.elements_malloc = false then
    some { Asub with
           stride := A.stride
           off := A.off + (R * A.stride * blockSize + C * blockSize)
           buf := A.buf }
  else none

/-- `MatMultElement`: `C_rc = Σ_{k=0}^{A.width-1}
A.elements[r*A.stride+k] * B.elements[k*B.stride+c]`, as the source's
accumulation loop. -/
def MatMultElement (A B : Mat) (r c : Nat) : ℚ :=
  (List.range A.width).foldl
    (fun C_rc k => C_rc + A.buf (A.off + r * A.stride + k) * B.buf (B.off + k * B.stride + c)) 0

/-- The nested loop body of `MatMultHost`:
`for r < A.height: for c < B.width: SetElement(C, r, c, MatMultElement(A,B,r,c))`. -/
def MatMultHostLoop (A B C : Mat) : Mat :=
  (List.range A.height).foldl
    (fun acc r =>
      (List.range B.width).foldl
        (fun acc2 c => SetElement acc2 r c (MatMultElement A B r c)) acc) C

/-- `MatMultHost`: the three shape assertions, then the element loop. -/
def MatMultHost (A B C : Mat) : Option Mat :=
  if A.width = B.height ∧ A.height = C.height ∧ B.width = C.width then
    some (MatMultHostLoop A B C)
  else none

/-- `MatEqual`: false on shape mismatch, otherwise false iff some element
pair differs by more than `tol` in absolute value. -/
def MatEqual (A B : Mat) (tol : ℚ) : Bool :=
  if A.height = B.height ∧ A.width = B.width then
    (List.range A.height).all fun r =>
      (List.range A.width).all fun c =>
        decide (|GetElement A r c - GetElement B r c| ≤ tol)
  else false

/-- `dim3 dimBlock(BLOCK_SIZE, BLOCK_SIZE)`. -/
def dimBlock : Nat × Nat := (BLOCK_SIZE, BLOCK_SIZE)

/-- `dim3 dimGrid(B.width / dimBlock.x, A.height / dimBlock.y)`. -/
def dimGrid (A B : Mat) : Nat × Nat := (B.width / dimBlock.1, A.height / dimBlock.2)

/-- `cudaMemcpy(dst.elements, src.elements, count*sizeof(float), ...)`:
the `count` floats starting at `src.elements` overwrite the `count`
floats starting at `dst.elements`. -/
def memcpyFloats (dst src : Mat) (count : Nat) : Mat :=
  { dst with
    buf := fun i =>
      if dst.off ≤ i ∧ i < dst.off + count then src.buf (src.off + (i - dst.off))
      else dst.buf i }

/-- The list of all `(blockIdx.y, blockIdx.x, threadIdx.y, threadIdx.x)`
tuples of a launch with grid `(gx, gy)` and block `(T, T)`. -/
def launchGrid (gx gy T : Nat) : List (Nat × Nat × Nat × Nat) :=
  (List.range gy).flatMap fun bY =>
    (List.range gx).flatMap fun bx =>
      (List.range T).flatMap fun ty =>
        (List.range T).map fun tx => (bY, bx, ty, tx)

/-- One thread of `MatMult_k0`: `r = blockIdx.y*blockDim.y + threadIdx.y`,
`c = blockIdx.x*blockDim.x + threadIdx.x`,
`SetElement(C, r, c, MatMultElement(A, B, r, c))`. -/
def MatMult_k0_thread (A B C : Mat) (bY bx ty tx T : Nat) : Mat :=
  SetElement C (bY * T + ty) (bx * T + tx) (MatMultElement A B (bY * T + ty) (bx * T + tx))

/-- The launch of `MatMult_k0`: every thread of the grid executes its body;
the threads write pairwise distinct cells, so the launch denotes the fold
of the bodies over the thread list. -/
def MatMult_k0_launch (A B C : Mat) (gx gy T : Nat) : Mat :=
  (launchGrid gx gy T).foldl
    (fun acc q => MatMult_k0_thread A B acc q.1 q.2.1 q.2.2.1 q.2.2.2 T) C

/-- Contents of a shared-memory tile (`Asubs` / `Bsubs`) after the staging
barrier of `MatMult_k1`: entry `r*w + c` was written by the thread with
`threadIdx.y = r`, `threadIdx.x = c` and holds `GetElement(sub, r, c)` of
the staged sub-matrix. -/
def sharedTile (M : Mat) (R K w : Nat) : Nat → ℚ :=
  fun i => GetElement (GetSubMatrix M R K w) (i / w) (i % w)

/-- The accumulator `Csub_rc` of one `MatMult_k1` thread: with
`W = MatA.width / w`, for each `K < W` the two tiles are staged into
shared memory (barrier-separated) and
`Csub_rc += Σ_{k<w} Asubs[r*w+k] * Bsubs[k*w+c]`. -/
def MatMult_k1_value (MatA MatB : Mat) (R C r c w : Nat) : ℚ :=
  (List.range (MatA.width / w)).foldl
    (fun Csub_rc K =>
      let Asubs := sharedTile MatA R K w
      let Bsubs := sharedTile MatB K C w
      (List.range w).foldl (fun acc k => acc + Asubs (r * w + k) * Bsubs (k * w + c)) Csub_rc) 0

/-- One thread of `MatMult_k1`: `R = blockIdx.y`, `C = blockIdx.x`,
`r = threadIdx.y`, `c = threadIdx.x`, `Csub = GetSubMatrix(MatC, R, C, w)`;
after the K-loop the thread stores its accumulator through the sub-view:
`SetElement(Csub, r, c, Csub_rc)`, a write into `MatC`'s buffer. -/
def MatMult_k1_thread (MatA MatB MatC : Mat) (bY bx ty tx w : Nat) : Mat :=
  let Csub := GetSubMatrix MatC bY bx w
  { MatC with buf := (SetElement Csub ty tx (MatMult_k1_value MatA MatB bY bx ty tx w)).buf }

/-- The launch of `MatMult_k1` over the whole grid. -/
def MatMult_k1_launch (A B C : Mat) (gx gy T : Nat) : Mat :=
  (launchGrid gx gy T).foldl
    (fun acc q => MatMult_k1_thread A B acc q.1 q.2.1 q.2.2.1 q.2.2.2 T) C

/-- The body of `MatMultGPU` after its assertions: allocate zeroed device
twins, copy the operands in (`A.size` resp. `B.size` bytes), launch the
selected kernel with block `dimBlock` and grid `dimGrid`, copy `C.size`
bytes of the result back into `C.elements`, free the twins. -/
def MatMultGPURun (A B C : Mat) (optimized : Bool) : Mat :=
  let d_A := memcpyFloats (MatInitGPU A.height A.width) A (A.size / sizeofFloat)
  let d_B := memcpyFloats (MatInitGPU B.height B.width) B (B.size / sizeofFloat)
  let d_C := MatInitGPU C.height C.width
  let d_C2 :=
    if optimized then
      MatMult_k1_launch d_A d_B d_C (dimGrid A B).1 (dimGrid A B).2 BLOCK_SIZE
    else
      MatMult_k0_launch d_A d_B d_C (dimGrid A B).1 (dimGrid A B).2 BLOCK_SIZE
  memcpyFloats C d_C2 (C.size / sizeofFloat)

/-- `MatMultGPU`: the three shape assertions, then the staged launch. -/
def MatMultGPU (A B C : Mat) (optimized : Bool) : Option Mat :=
  if A.width = B.height ∧ A.height = C.height ∧ B.width = C.width then
    some (MatMultGPURun A B C optimized)
  else none

/-- `MatFillX` (test00.cu): `X[r,c] = 1` iff `r + c == X.width - 1`, else 0. -/
def MatFillX (X : Mat) : Mat :=
  (List.range X.height).foldl
    (fun acc r =>
      (List.range X.width).foldl
        (fun acc2 c => SetElement acc2 r c (if r + c = X.width - 1 then 1 else 0)) acc) X

/-- `MatFillY` (test00.cu): `Y[r,c] = r * Y.width + c`. -/
def MatFillY (X : Mat) : Mat :=
  (List.range X.height).foldl
    (fun acc r =>
      (List.range X.width).foldl
        (fun acc2 c => SetElement acc2 r c ((r : ℚ) * X.width + c)) acc) X

/-! ### Generic lemmas about folds of single-cell writes -/

/-- A fold step that writes `val i` at cell `(row i, col i)` of the
accumulator (relative to the accumulator's own `elements` pointer and
`stride`) and leaves every other field alone. -/
def writeStep {ι : Type} (row col : ι → Nat) (val : ι → ℚ) (acc : Mat) (i : ι) : Mat :=
  { acc with buf := Function.update acc.buf (acc.off + row i * acc.stride + col i) (val i) }

theorem foldl_write_mk {ι : Type} (f : Mat → ι → Mat) (row col : ι → Nat) (val : ι → ℚ)
    (hstep : ∀ acc i, f acc i = writeStep row col val acc i)
    (l : List ι) (M : Mat) :
    l.foldl f M = { M with buf := (l.foldl f M).buf } := by
  induction l generalizing M with
  | nil => rfl
  | cons a t ih =>
    rw [List.foldl_cons, hstep, ih]
    rfl

theorem foldl_write_frame {ι : Type} (f : Mat → ι → Mat) (row col : ι → Nat) (val : ι → ℚ)
    (hstep : ∀ acc i, f acc i = writeStep row col val acc i)
    (l : List ι) (M : Mat) (j : Nat)
    (hj : ∀ i ∈ l, M.off + row i * M.stride + col i ≠ j) :
    (l.foldl f M).buf j = M.buf j := by
  induction l generalizing M with
  | nil => rfl
  | cons a t ih =>
    show (t.foldl f (f M a)).buf j = M.buf j
    rw [hstep]
    have h1 : ((writeStep row col val M a)).buf j = M.buf j := by
      simp only [writeStep]
      exact Function.update_noteq (Ne.symm (hj a (List.mem_cons_self a t))) _ _
    calc (t.foldl f (writeStep row col val M a)).buf j
        = (writeStep row col val M a).buf j := by
          refine ih (writeStep row col val M a) ?_
          intro i hi
          exact hj i (List.mem_cons_of_mem a hi)
      _ = M.buf j := h1

theorem foldl_write_get {ι : Type} (f : Mat → ι → Mat) (row col : ι → Nat) (val : ι → ℚ)
    (hstep : ∀ acc i, f acc i = writeStep row col val acc i)
    (l : List ι) (M : Mat) (i : ι) (hi : i ∈ l)
    (huniq : ∀ i' ∈ l, row i' * M.stride + col i' = row i * M.stride + col i → i' = i) :
    (l.foldl f M).buf (M.off + row i * M.stride + col i) = val i := by
  induction l generalizing M with
  | nil => exact absurd hi (List.not_mem_nil i)
  | cons a t ih =>
    show (t.foldl f (f M a)).buf (M.off + row i * M.stride + col i) = val i
    rw [hstep]
    by_cases hmem : i ∈ t
    · exact ih (writeStep row col val M a) hmem
        (fun i' hi' h => huniq i' (List.mem_cons_of_mem a hi') h)
    · have hia : i = a := by
        rcases List.mem_cons.mp hi with h | h
        · exact h
        · exact absurd h hmem
      have hframe : (t.foldl f (writeStep row col val M a)).buf
          (M.off + row i * M.stride + col i)
          = (writeStep row col val M a).buf (M.off + row i * M.stride + col i) := by
        refine foldl_write_frame f row col val hstep t (writeStep row col val M a) _ ?_
        intro i' hi' h
        simp only [writeStep] at h
        have h2 : row i' * M.stride + col i' = row i * M.stride + col i := by omega
        have : i' = i := huniq i' (List.mem_cons_of_mem a hi') h2
        exact hmem (this ▸ hi')
      rw [hframe, hia]
      simp only [writeStep]
      exact Function.update_same _ _ _

/-- Flattening a sequential double loop into a fold over the pair list. -/
def pairList (m n : Nat) : List (Nat × Nat) :=
  (List.range m).flatMap fun r => (List.range n).map fun c => (r, c)

theorem mem_pairList (m n : Nat) (p : Nat × Nat) :
    p ∈ pairList m n ↔ p.1 < m ∧ p.2 < n := by
  constructor
  · intro h
    simp only [pairList, List.mem_flatMap, List.mem_map, List.mem_range] at h
    obtain ⟨r, hr, c, hc, hp⟩ := h
    subst hp
    exact ⟨hr, hc⟩
  · intro ⟨h1, h2⟩
    simp only [pairList, List.mem_flatMap, List.mem_map, List.mem_range]
    exact ⟨p.1, h1, p.2, h2, rfl⟩

theorem foldl_foldl_pairs {σ : Type} (F : σ → Nat → Nat → σ) (l1 l2 : List Nat) (M : σ) :
    l1.foldl (fun a r => l2.foldl (fun a2 c => F a2 r c) a) M
      = (l1.flatMap fun r => l2.map fun c => (r, c)).foldl (fun a p => F a p.1 p.2) M := by
  induction l1 generalizing M with
  | nil => rfl
  | cons r t ih =>
    show t.foldl _ (l2.foldl (fun a2 c => F a2 r c) M) = _
    rw [ih, List.flatMap_cons, List.foldl_append, List.foldl_map]

theorem mem_launchGrid (gx gy T : Nat) (q : Nat × Nat × Nat × Nat) :
    q ∈ launchGrid gx gy T ↔ q.1 < gy ∧ q.2.1 < gx ∧ q.2.2.1 < T ∧ q.2.2.2 < T := by
  constructor
  · intro h
    simp only [launchGrid, List.mem_flatMap, List.mem_map, List.mem_range] at h
    obtain ⟨bY, hbY, bx, hbx, ty, hty, tx, htx, hq⟩ := h
    subst hq
    exact ⟨hbY, hbx, hty, htx⟩
  · intro ⟨h1, h2, h3, h4⟩
    simp only [launchGrid, List.mem_flatMap, List.mem_map, List.mem_range]
    exact ⟨q.1, h1, q.2.1, h2, q.2.2.1, h3, q.2.2.2, h4, rfl⟩

/-! ### Arithmetic helpers for the row/column index maps -/

theorem rowcol_inj (s r c r' c' : Nat) (hc : c < s) (hc' : c' < s)
    (h : r * s + c = r' * s + c') : r = r' ∧ c = c' := by
  have hs : 0 < s := lt_of_le_of_lt (Nat.zero_le c) hc
  have h1 : (r * s + c) % s = c := by
    rw [Nat.mul_comm r s, Nat.mul_add_mod]
    exact Nat.mod_eq_of_lt hc
  have h2 : (r' * s + c') % s = c' := by
    rw [Nat.mul_comm r' s, Nat.mul_add_mod]
    exact Nat.mod_eq_of_lt hc'
  have hcc : c = c' := by rw [← h1, ← h2, h]
  constructor
  · have := h
    rw [hcc] at this
    have := Nat.add_right_cancel this
    exact Nat.eq_of_mul_eq_mul_right hs this
  · exact hcc

theorem div_mod_pair (T a b : Nat) (hb : b < T) :
    (a * T + b) / T = a ∧ (a * T + b) % T = b := by
  have hT : 0 < T := lt_of_le_of_lt (Nat.zero_le b) hb
  constructor
  · rw [Nat.mul_comm a T, Nat.mul_add_div hT, Nat.div_eq_of_lt hb]
    omega
  · rw [Nat.mul_comm a T, Nat.mul_add_mod]
    exact Nat.mod_eq_of_lt hb

/-! ### Sums -/

theorem foldl_add_eq_sum (g : Nat → ℚ) (n : Nat) (init : ℚ) :
    (List.range n).foldl (fun a k => a + g k) init = init + ∑ k in Finset.range n, g k := by
  induction n generalizing init with
  | zero => simp
  | succ m ih =>
    rw [List.range_succ, List.foldl_append, ih, Finset.sum_range_succ]
    simp [add_assoc]

theorem sum_range_add_split (g : Nat → ℚ) (m n : Nat) :
    ∑ j in Finset.range (m + n), g j
      = (∑ j in Finset.range m, g j) + ∑ k in Finset.range n, g (m + k) := by
  induction n with
  | zero => simp
  | succ p ih =>
    have h1 : m + (p + 1) = (m + p) + 1 := by omega
    rw [h1, Finset.sum_range_succ, ih, Finset.sum_range_succ, add_assoc]

theorem sum_tiles (g : Nat → ℚ) (W T : Nat) :
    ∑ K in Finset.range W, ∑ k in Finset.range T, g (K * T + k)
      = ∑ j in Finset.range (W * T), g j := by
  induction W with
  | zero => simp
  | succ m ih =>
    rw [Finset.sum_range_succ, ih]
    have hmul : (m + 1) * T = m * T + T := by ring
    rw [hmul, sum_range_add_split g (m * T) T]

theorem matMultElement_eq_sum (A B : Mat) (r c : Nat) :
    MatMultElement A B r c = ∑ k in Finset.range A.width, GetElement A r k * GetElement B k c := by
  rw [MatMultElement, foldl_add_eq_sum, zero_add]
  rfl

/-! ### Sub-matrix views -/

theorem getSubMatrix_getElement (A : Mat) (R C T r c : Nat) :
    GetElement (GetSubMatrix A R C T) r c = GetElement A (R * T + r) (C * T + c) := by
  simp only [GetElement, GetSubMatrix]
  congr 1
  ring

theorem sharedTile_eval (M : Mat) (R K w r k : Nat) (hk : k < w) :
    sharedTile M R K w (r * w + k) = GetElement M (R * w + r) (K * w + k) := by
  rw [sharedTile, (div_mod_pair w r k hk).1, (div_mod_pair w r k hk).2,
    getSubMatrix_getElement]

/-! ### memcpy -/

theorem memcpyFloats_buf_in (dst src : Mat) (count j : Nat)
    (h1 : dst.off ≤ j) (h2 : j < dst.off + count) :
    (memcpyFloats dst src count).buf j = src.buf (src.off + (j - dst.off)) := by
  simp [memcpyFloats, h1, h2]

/-! ### The host multiplication loop -/

theorem matMultHostLoop_eq_flat (A B C : Mat) :
    MatMultHostLoop A B C
      = (pairList A.height B.width).foldl
          (fun acc p => SetElement acc p.1 p.2 (MatMultElement A B p.1 p.2)) C := by
  rw [MatMultHostLoop, pairList]
  exact foldl_foldl_pairs (fun a r c => SetElement a r c (MatMultElement A B r c))
    (List.range A.height) (List.range B.width) C

theorem hostLoop_hstep (A B : Mat) :
    ∀ (acc : Mat) (p : Nat × Nat),
      SetElement acc p.1 p.2 (MatMultElement A B p.1 p.2)
        = writeStep (fun p : Nat × Nat => p.1) (fun p : Nat × Nat => p.2)
            (fun p : Nat × Nat => MatMultElement A B p.1 p.2) acc p :=
  fun _ _ => rfl

theorem matMultHostLoop_mk (A B C : Mat) :
    MatMultHostLoop A B C = { C with buf := (MatMultHostLoop A B C).buf } := by
  rw [matMultHostLoop_eq_flat]
  exact foldl_write_mk _ _ _ _ (hostLoop_hstep A B) _ C

theorem matMultHostLoop_getElement (A B C : Mat)
    (hstr : C.width ≤ C.stride) (h2 : A.height = C.height) (h3 : B.width = C.width)
    (r c : Nat) (hr : r < C.height) (hc : c < C.width) :
    GetElement (MatMultHostLoop A B C) r c = MatMultElement A B r c := by
  have hoff : (MatMultHostLoop A B C).off = C.off := by rw [matMultHostLoop_mk]
  have hstride : (MatMultHostLoop A B C).stride = C.stride := by rw [matMultHostLoop_mk]
  rw [GetElement, hoff, hstride, matMultHostLoop_eq_flat]
  have := foldl_write_get _ _ _ _ (hostLoop_hstep A B) (pairList A.height B.width) C (r, c)
    ((mem_pairList _ _ (r, c)).mpr ⟨h2 ▸ hr, h3 ▸ hc⟩)
    (by
      intro p hp heq
      have hmem := (mem_pairList _ _ p).mp hp
      have := rowcol_inj C.stride p.1 p.2 r c
        (lt_of_lt_of_le (h3 ▸ hmem.2) hstr) (lt_of_lt_of_le hc hstr) heq
      exact Prod.ext this.1 this.2)
  exact this

theorem matMultHostLoop_frame (A B C : Mat) (j : Nat)
    (hj : ∀ r < A.height, ∀ c < B.width, C.off + r * C.stride + c ≠ j) :
    (MatMultHostLoop A B C).buf j = C.buf j := by
  rw [matMultHostLoop_eq_flat]
  refine foldl_write_frame _ _ _ _ (hostLoop_hstep A B) (pairList A.height B.width) C j ?_
  intro p hp
  have hmem := (mem_pairList _ _ p).mp hp
  exact hj p.1 hmem.1 p.2 hmem.2

/-! ### Device copies -/

theorem tile_lt (a b g T : Nat) (ha : a < g) (hb : b < T) : a * T + b < g * T := by
  have h2 : (a + 1) * T ≤ g * T := Nat.mul_le_mul_right T ha
  have h3 : (a + 1) * T = a * T + T := by ring
  omega

theorem deviceCopy_getElement (A : Mat) (hstr : A.stride = A.width)
    (hsize : A.size = A.height * A.width * sizeofFloat) (r k : Nat)
    (hr : r < A.height) (hk : k < A.width) :
    GetElement (memcpyFloats (MatInitGPU A.height A.width) A (A.size / sizeofFloat)) r k
      = GetElement A r k := by
  have hcount : A.size / sizeofFloat = A.height * A.width := by
    rw [hsize, sizeofFloat]
    omega
  have hlt : r * A.width + k < A.height * A.width := by
    have h2 : (r + 1) * A.width ≤ A.height * A.width := Nat.mul_le_mul_right A.width hr
    have h3 : (r + 1) * A.width = r * A.width + A.width := by ring
    omega
  simp only [GetElement, memcpyFloats, MatInitGPU, MatInit, hcount]
  rw [if_pos ⟨Nat.zero_le _, by omega⟩, hstr]
  congr 1
  omega

theorem deviceCopy_matMultElement (A B : Mat)
    (hA : A.stride = A.width) (hB : B.stride = B.width)
    (hsA : A.size = A.height * A.width * sizeofFloat)
    (hsB : B.size = B.height * B.width * sizeofFloat)
    (h1 : A.width = B.height) (r c : Nat) (hr : r < A.height) (hc : c < B.width) :
    MatMultElement (memcpyFloats (MatInitGPU A.height A.width) A (A.size / sizeofFloat))
        (memcpyFloats (MatInitGPU B.height B.width) B (B.size / sizeofFloat)) r c
      = MatMultElement A B r c := by
  rw [matMultElement_eq_sum, matMultElement_eq_sum]
  have hw : (memcpyFloats (MatInitGPU A.height A.width) A (A.size / sizeofFloat)).width
      = A.width := rfl
  rw [hw]
  apply Finset.sum_congr rfl
  intro k hk
  have hk' : k < A.width := Finset.mem_range.mp hk
  rw [deviceCopy_getElement A hA hsA r k hr hk',
    deviceCopy_getElement B hB hsB k c (h1 ▸ hk') hc]

/-! ### Kernel launches -/

theorem k0_hstep (A B : Mat) (T : Nat) :
    ∀ (acc : Mat) (q : Nat × Nat × Nat × Nat),
      MatMult_k0_thread A B acc q.1 q.2.1 q.2.2.1 q.2.2.2 T
        = writeStep (fun q : Nat × Nat × Nat × Nat => q.1 * T + q.2.2.1)
            (fun q : Nat × Nat × Nat × Nat => q.2.1 * T + q.2.2.2)
            (fun q : Nat × Nat × Nat × Nat =>
              MatMultElement A B (q.1 * T + q.2.2.1) (q.2.1 * T + q.2.2.2)) acc q :=
  fun _ _ => rfl

theorem k1_hstep (A B : Mat) (T : Nat) :
    ∀ (acc : Mat) (q : Nat × Nat × Nat × Nat),
      MatMult_k1_thread A B acc q.1 q.2.1 q.2.2.1 q.2.2.2 T
        = writeStep (fun q : Nat × Nat × Nat × Nat => q.1 * T + q.2.2.1)
            (fun q : Nat × Nat × Nat × Nat => q.2.1 * T + q.2.2.2)
            (fun q : Nat × Nat × Nat × Nat =>
              MatMult_k1_value A B q.1 q.2.1 q.2.2.1 q.2.2.2 T) acc q := by
  intro acc q
  have hpos : acc.off + (q.1 * acc.stride * T + q.2.1 * T) + q.2.2.1 * acc.stride + q.2.2.2
      = acc.off + (q.1 * T + q.2.2.1) * acc.stride + (q.2.1 * T + q.2.2.2) := by ring
  simp only [MatMult_k1_thread, writeStep, SetElement, GetSubMatrix, MatInit]
  rw [hpos]

theorem matMult_k0_launch_mk (A B C : Mat) (gx gy T : Nat) :
    MatMult_k0_launch A B C gx gy T
      = { C with buf := (MatMult_k0_launch A B C gx gy T).buf } :=
  foldl_write_mk _ _ _ _ (k0_hstep A B T) _ C

theorem matMult_k1_launch_mk (A B C : Mat) (gx gy T : Nat) :
    MatMult_k1_launch A B C gx gy T
      = { C with buf := (MatMult_k1_launch A B C gx gy T).buf } :=
  foldl_write_mk _ _ _ _ (k1_hstep A B T) _ C

theorem launch_write_get {gx gy T : Nat} (f : Mat → Nat × Nat × Nat × Nat → Mat)
    (val : Nat × Nat × Nat × Nat → ℚ)
    (hstep : ∀ acc q, f acc q
      = writeStep (fun q : Nat × Nat × Nat × Nat => q.1 * T + q.2.2.1)
          (fun q : Nat × Nat × Nat × Nat => q.2.1 * T + q.2.2.2) val acc q)
    (M : Mat) (r c : Nat) (hT : 0 < T) (hr : r / T < gy) (hc : c / T < gx)
    (hstride : gx * T ≤ M.stride) :
    ((launchGrid gx gy T).foldl f M).buf (M.off + r * M.stride + c)
      = val (r / T, c / T, r % T, c % T) := by
  have hrow : (r / T) * T + r % T = r := by
    rw [Nat.mul_comm]
    exact Nat.div_add_mod r T
  have hcol : (c / T) * T + c % T = c := by
    rw [Nat.mul_comm]
    exact Nat.div_add_mod c T
  have hmem : (r / T, c / T, r % T, c % T) ∈ launchGrid gx gy T :=
    (mem_launchGrid gx gy T _).mpr ⟨hr, hc, Nat.mod_lt _ hT, Nat.mod_lt _ hT⟩
  have hcM : c < M.stride := by
    have := tile_lt (c / T) (c % T) gx T hc (Nat.mod_lt _ hT)
    omega
  have huniq : ∀ q' ∈ launchGrid gx gy T,
      (q'.1 * T + q'.2.2.1) * M.stride + (q'.2.1 * T + q'.2.2.2)
        = ((r / T, c / T, r % T, c % T).1 * T + (r / T, c / T, r % T, c % T).2.2.1) * M.stride
            + ((r / T, c / T, r % T, c % T).2.1 * T + (r / T, c / T, r % T, c % T).2.2.2)
        → q' = (r / T, c / T, r % T, c % T) := by
    intro q' hq' heq
    obtain ⟨a, b, d, e⟩ := q'
    obtain ⟨hby, hbx, hty, htx⟩ := (mem_launchGrid gx gy T _).mp hq'
    simp only at heq hby hbx hty htx
    rw [hrow, hcol] at heq
    have hcol' : b * T + e < M.stride := lt_of_lt_of_le (tile_lt b e gx T hbx htx) hstride
    have hinj := rowcol_inj M.stride (a * T + d) (b * T + e) r c hcol' hcM heq
    have e1 := div_mod_pair T a d hty
    have e2 := div_mod_pair T b e htx
    have ha : a = r / T := by rw [← hinj.1, e1.1]
    have hd : d = r % T := by rw [← hinj.1, e1.2]
    have hb : b = c / T := by rw [← hinj.2, e2.1]
    have he : e = c % T := by rw [← hinj.2, e2.2]
    simp [ha, hb, hd, he]
  have := foldl_write_get f _ _ val hstep (launchGrid gx gy T) M _ hmem huniq
  rw [hrow, hcol] at this
  exact this

theorem matMult_k1_value_eq (MatA MatB : Mat) (R C r c T : Nat) (hc : c < T)
    (hd : T ∣ MatA.width) :
    MatMult_k1_value MatA MatB R C r c T = MatMultElement MatA MatB (R * T + r) (C * T + c) := by
  have hT : 0 < T := lt_of_le_of_lt (Nat.zero_le c) hc
  obtain ⟨W, hW⟩ := hd
  have hWdiv : MatA.width / T = W := by
    rw [hW]
    exact Nat.mul_div_cancel_left W hT
  rw [MatMult_k1_value, matMultElement_eq_sum, hWdiv]
  conv_rhs => rw [hW, Nat.mul_comm T W]
  rw [← sum_tiles]
  simp only [foldl_add_eq_sum, zero_add]
  apply Finset.sum_congr rfl
  intro K hK
  apply Finset.sum_congr rfl
  intro k hk
  rw [sharedTile_eval MatA R K T r k (Finset.mem_range.mp hk),
    sharedTile_eval MatB K C T k c hc]

theorem divmod_recompose (T x : Nat) : (x / T) * T + x % T = x := by
  rw [Nat.mul_comm]
  exact Nat.div_add_mod x T

theorem k0_launch_buf (dA dB C0 : Mat) (gx gy : Nat) (r c : Nat)
    (hr : r / BLOCK_SIZE < gy) (hc : c / BLOCK_SIZE < gx)
    (hstride : gx * BLOCK_SIZE ≤ C0.stride) :
    (MatMult_k0_launch dA dB C0 gx gy BLOCK_SIZE).buf (C0.off + r * C0.stride + c)
      = MatMultElement dA dB r c := by
  rw [MatMult_k0_launch,
    launch_write_get _ _ (k0_hstep dA dB BLOCK_SIZE) C0 r c (by norm_num [BLOCK_SIZE])
      hr hc hstride]
  show MatMultElement dA dB
    ((r / BLOCK_SIZE) * BLOCK_SIZE + r % BLOCK_SIZE)
    ((c / BLOCK_SIZE) * BLOCK_SIZE + c % BLOCK_SIZE) = MatMultElement dA dB r c
  rw [divmod_recompose, divmod_recompose]

theorem k1_launch_buf (dA dB C0 : Mat) (gx gy : Nat) (r c : Nat)
    (hdW : BLOCK_SIZE ∣ dA.width)
    (hr : r / BLOCK_SIZE < gy) (hc : c / BLOCK_SIZE < gx)
    (hstride : gx * BLOCK_SIZE ≤ C0.stride) :
    (MatMult_k1_launch dA dB C0 gx gy BLOCK_SIZE).buf (C0.off + r * C0.stride + c)
      = MatMultElement dA dB r c := by
  rw [MatMult_k1_launch,
    launch_write_get _ _ (k1_hstep dA dB BLOCK_SIZE) C0 r c (by norm_num [BLOCK_SIZE])
      hr hc hstride]
  show MatMult_k1_value dA dB (r / BLOCK_SIZE) (c / BLOCK_SIZE)
    (r % BLOCK_SIZE) (c % BLOCK_SIZE) BLOCK_SIZE = MatMultElement dA dB r c
  rw [matMult_k1_value_eq dA dB _ _ _ _ _
    (Nat.mod_lt _ (by norm_num [BLOCK_SIZE])) hdW, divmod_recompose, divmod_recompose]

theorem matMultGPURun_getElement (A B C : Mat)
    (hA : A.stride = A.width) (hB : B.stride = B.width) (hC : C.stride = C.width)
    (hsA : A.size = A.height * A.width * sizeofFloat)
    (hsB : B.size = B.height * B.width * sizeofFloat)
    (hsC : C.size = C.height * C.width * sizeofFloat)
    (h1 : A.width = B.height) (h2 : A.height = C.height) (h3 : B.width = C.width)
    (hdH : BLOCK_SIZE ∣ A.height) (hdW : BLOCK_SIZE ∣ A.width) (hdB : BLOCK_SIZE ∣ B.width)
    (opt : Bool) (r c : Nat) (hr : r < C.height) (hc : c < C.width) :
    GetElement (MatMultGPURun A B C opt) r c = MatMultElement A B r c := by
  have hcount : C.size / sizeofFloat = C.height * C.width := by
    rw [hsC, sizeofFloat]
    omega
  have hlt : r * C.width + c < C.height * C.width := by
    have hm : (r + 1) * C.width ≤ C.height * C.width := Nat.mul_le_mul_right C.width hr
    have hq : (r + 1) * C.width = r * C.width + C.width := by ring
    omega
  have hgy : r / BLOCK_SIZE < (dimGrid A B).2 := by
    show r / BLOCK_SIZE < A.height / BLOCK_SIZE
    exact Nat.div_lt_div_of_lt_of_dvd hdH (by omega)
  have hgx : c / BLOCK_SIZE < (dimGrid A B).1 := by
    show c / BLOCK_SIZE < B.width / BLOCK_SIZE
    exact Nat.div_lt_div_of_lt_of_dvd hdB (by omega)
  have hdev : MatMultElement
      (memcpyFloats (MatInitGPU A.height A.width) A (A.size / sizeofFloat))
      (memcpyFloats (MatInitGPU B.height B.width) B (B.size / sizeofFloat)) r c
      = MatMultElement A B r c :=
    deviceCopy_matMultElement A B hA hB hsA hsB h1 r c (by omega) (by omega)
  cases opt with
  | false =>
    have hrun : MatMultGPURun A B C false
        = memcpyFloats C
            (MatMult_k0_launch
              (memcpyFloats (MatInitGPU A.height A.width) A (A.size / sizeofFloat))
              (memcpyFloats (MatInitGPU B.height B.width) B (B.size / sizeofFloat))
              (MatInitGPU C.height C.width) (dimGrid A B).1 (dimGrid A B).2 BLOCK_SIZE)
            (C.size / sizeofFloat) := rfl
    rw [hrun]
    have hstrideC : (dimGrid A B).1 * BLOCK_SIZE ≤ (MatInitGPU C.height C.width).stride := by
      show B.width / BLOCK_SIZE * BLOCK_SIZE ≤ C.width
      rw [Nat.div_mul_cancel hdB]
      omega
    have hbuf := k0_launch_buf
      (memcpyFloats (MatInitGPU A.height A.width) A (A.size / sizeofFloat))
      (memcpyFloats (MatInitGPU B.height B.width) B (B.size / sizeofFloat))
      (MatInitGPU C.height C.width) (dimGrid A B).1 (dimGrid A B).2 r c hgy hgx hstrideC
    have hpos : (MatInitGPU C.height C.width).off
        + r * (MatInitGPU C.height C.width).stride + c = r * C.width + c := by
      show 0 + r * C.width + c = r * C.width + c
      omega
    rw [hpos] at hbuf
    rw [GetElement]
    rw [show (memcpyFloats C
        (MatMult_k0_launch
          (memcpyFloats (MatInitGPU A.height A.width) A (A.size / sizeofFloat))
          (memcpyFloats (MatInitGPU B.height B.width) B (B.size / sizeofFloat))
          (MatInitGPU C.height C.width) (dimGrid A B).1 (dimGrid A B).2 BLOCK_SIZE)
        (C.size / sizeofFloat)).off = C.off from rfl,
      show (memcpyFloats C
        (MatMult_k0_launch
          (memcpyFloats (MatInitGPU A.height A.width) A (A.size / sizeofFloat))
          (memcpyFloats (MatInitGPU B.height B.width) B (B.size / sizeofFloat))
          (MatInitGPU C.height C.width) (dimGrid A B).1 (dimGrid A B).2 BLOCK_SIZE)
        (C.size / sizeofFloat)).stride = C.stride from rfl,
      memcpyFloats_buf_in _ _ _ _ (by omega) (by rw [hcount, hC]; omega)]
    have hLoff : (MatMult_k0_launch
        (memcpyFloats (MatInitGPU A.height A.width) A (A.size / sizeofFloat))
        (memcpyFloats (MatInitGPU B.height B.width) B (B.size / sizeofFloat))
        (MatInitGPU C.height C.width) (dimGrid A B).1 (dimGrid A B).2 BLOCK_SIZE).off
        = 0 := by
      rw [matMult_k0_launch_mk]
      rfl
    have harith : (0 : Nat) + (C.off + r * C.stride + c - C.off) = r * C.width + c := by
      rw [hC]
      omega
    rw [hLoff, harith, hbuf, hdev]
  | true =>
    have hrun : MatMultGPURun A B C true
        = memcpyFloats C
            (MatMult_k1_launch
              (memcpyFloats (MatInitGPU A.height A.width) A (A.size / sizeofFloat))
              (memcpyFloats (MatInitGPU B.height B.width) B (B.size / sizeofFloat))
              (MatInitGPU C.height C.width) (dimGrid A B).1 (dimGrid A B).2 BLOCK_SIZE)
            (C.size / sizeofFloat) := rfl
    rw [hrun]
    have hstrideC : (dimGrid A B).1 * BLOCK_SIZE ≤ (MatInitGPU C.height C.width).stride := by
      show B.width / BLOCK_SIZE * BLOCK_SIZE ≤ C.width
      rw [Nat.div_mul_cancel hdB]
      omega
    have hbuf := k1_launch_buf
      (memcpyFloats (MatInitGPU A.height A.width) A (A.size / sizeofFloat))
      (memcpyFloats (MatInitGPU B.height B.width) B (B.size / sizeofFloat))
      (MatInitGPU C.height C.width) (dimGrid A B).1 (dimGrid A B).2 r c hdW hgy hgx hstrideC
    have hpos : (MatInitGPU C.height C.width).off
        + r * (MatInitGPU C.height C.width).stride + c = r * C.width + c := by
      show 0 + r * C.width + c = r * C.width + c
      omega
    rw [hpos] at hbuf
    rw [GetElement]
    rw [show (memcpyFloats C
        (MatMult_k1_launch
          (memcpyFloats (MatInitGPU A.height A.width) A (A.size / sizeofFloat))
          (memcpyFloats (MatInitGPU B.height B.width) B (B.size / sizeofFloat))
          (MatInitGPU C.height C.width) (dimGrid A B).1 (dimGrid A B).2 BLOCK_SIZE)
        (C.size / sizeofFloat)).off = C.off from rfl,
      show (memcpyFloats C
        (MatMult_k1_launch
          (memcpyFloats (MatInitGPU A.height A.width) A (A.size / sizeofFloat))
          (memcpyFloats (MatInitGPU B.height B.width) B (B.size / sizeofFloat))
          (MatInitGPU C.height C.width) (dimGrid A B).1 (dimGrid A B).2 BLOCK_SIZE)
        (C.size / sizeofFloat)).stride = C.stride from rfl,
      memcpyFloats_buf_in _ _ _ _ (by omega) (by rw [hcount, hC]; omega)]
    have hLoff : (MatMult_k1_launch
        (memcpyFloats (MatInitGPU A.height A.width) A (A.size / sizeofFloat))
        (memcpyFloats (MatInitGPU B.height B.width) B (B.size / sizeofFloat))
        (MatInitGPU C.height C.width) (dimGrid A B).1 (dimGrid A B).2 BLOCK_SIZE).off
        = 0 := by
      rw [matMult_k1_launch_mk]
      rfl
    have harith : (0 : Nat) + (C.off + r * C.stride + c - C.off) = r * C.width + c := by
      rw [hC]
      omega
    rw [hLoff, harith, hbuf, hdev]

/-! ### Claim theorems -/

/-- Claim C1: for host-resident matrices of compatible shapes whose
dimensions are exact multiples of `BLOCK_SIZE`, `MatMultGPU` with either
kernel (`optimized = false`: `MatMult_k0`; `optimized = true`:
`MatMult_k1`) leaves in `C` a result equal within tolerance `1e-10` to
the result of `MatMultHost`. -/
theorem mat_c1 (A B C : Mat)
    (hA : A.stride = A.width) (hB : B.stride = B.width) (hC : C.stride = C.width)
    (hsA : A.size = A.height * A.width * sizeofFloat)
    (hsB : B.size = B.height * B.width * sizeofFloat)
    (hsC : C.size = C.height * C.width * sizeofFloat)
    (h1 : A.width = B.height) (h2 : A.height = C.height) (h3 : B.width = C.width)
    (hdH : BLOCK_SIZE ∣ A.height) (hdW : BLOCK_SIZE ∣ A.width) (hdB : BLOCK_SIZE ∣ B.width)
    (opt : Bool) :
    ∃ Cg Ch, MatMultGPU A B C opt = some Cg ∧ MatMultHost A B C = some Ch ∧
      MatEqual Cg Ch ((1 : ℚ)/10^10) = true := by
  refine ⟨MatMultGPURun A B C opt, MatMultHostLoop A B C, ?_, ?_, ?_⟩
  · rw [MatMultGPU, if_pos ⟨h1, h2, h3⟩]
  · rw [MatMultHost, if_pos ⟨h1, h2, h3⟩]
  · have hgh : (MatMultGPURun A B C opt).height = C.height := rfl
    have hgw : (MatMultGPURun A B C opt).width = C.width := rfl
    have hhh : (MatMultHostLoop A B C).height = C.height := by
      rw [matMultHostLoop_mk]
    have hhw : (MatMultHostLoop A B C).width = C.width := by
      rw [matMultHostLoop_mk]
    have e1 : (MatMultGPURun A B C opt).height = (MatMultHostLoop A B C).height := by
      rw [hgh, hhh]
    have e2 : (MatMultGPURun A B C opt).width = (MatMultHostLoop A B C).width := by
      rw [hgw, hhw]
    rw [MatEqual, if_pos ⟨e1, e2⟩, hgh, hgw]
    simp only [List.all_eq_true, List.mem_range, decide_eq_true_eq]
    intro r hr c hc
    rw [matMultGPURun_getElement A B C hA hB hC hsA hsB hsC h1 h2 h3 hdH hdW hdB opt r c hr hc,
      matMultHostLoop_getElement A B C (by omega) h2 h3 r c hr hc, sub_self, abs_zero]
    positivity

/-- Claim C2: both the host reference loop and the per-element kernel
worker `MatMultElement` set each output element to the dot product
`C[r,c] = Σ_{k<width(A)} A[r,k] * B[k,c]`, for every r below height(C)
and c below width(C). -/
theorem mat_c2 (A B C : Mat)
    (h1 : A.width = B.height) (h2 : A.height = C.height) (h3 : B.width = C.width)
    (hs : C.width ≤ C.stride) :
    (∀ r c, MatMultElement A B r c
        = ∑ k in Finset.range A.width, GetElement A r k * GetElement B k c)
    ∧ ∃ Cp, MatMultHost A B C = some Cp ∧
        ∀ r < C.height, ∀ c < C.width,
          GetElement Cp r c = ∑ k in Finset.range A.width, GetElement A r k * GetElement B k c := by
  refine ⟨fun r c => matMultElement_eq_sum A B r c, MatMultHostLoop A B C, ?_, ?_⟩
  · rw [MatMultHost, if_pos ⟨h1, h2, h3⟩]
  · intro r hr c hc
    rw [matMultHostLoop_getElement A B C hs h2 h3 r c hr hc, matMultElement_eq_sum]

/-- Claim C3: `MatMultHost` and `MatMultGPU` fail their assertion-style
shape checks (returning `none`, i.e. aborting before any computation or
transfer) exactly when one of the three shape equalities is violated;
when all hold, no assertion fires and a result is produced. -/
theorem mat_c3 (A B C : Mat) (opt : Bool) :
    (¬(A.width = B.height ∧ A.height = C.height ∧ B.width = C.width) →
      MatMultHost A B C = none ∧ MatMultGPU A B C opt = none)
    ∧ ((A.width = B.height ∧ A.height = C.height ∧ B.width = C.width) →
      (MatMultHost A B C).isSome = true ∧ (MatMultGPU A B C opt).isSome = true) := by
  constructor
  · intro h
    rw [MatMultHost, if_neg h, MatMultGPU, if_neg h]
    exact ⟨rfl, rfl⟩
  · intro h
    rw [MatMultHost, if_pos h, MatMultGPU, if_pos h]
    exact ⟨rfl, rfl⟩

/-- Claim C4: `MatGetSubMatrix` asserts that the target descriptor owns
no buffer (neither a `malloc`-ed nor a `cudaMalloc`-ed elements pointer)
before aliasing the target into the parent's buffer; a call on a target
that owns a buffer fails the assertion instead of overwriting. -/
theorem mat_c4 (A Asub : Mat) (R C T : Nat) :
    ((Asub.elements_cudaMalloc = false ∧ Asub.elements_malloc = false) →
      ∃ Asub2, MatGetSubMatrix A R C T Asub = some Asub2
        ∧ Asub2.stride = A.stride
        ∧ Asub2.off = A.off + (R * A.stride * T + C * T)
        ∧ Asub2.buf = A.buf
        ∧ Asub2.height = Asub.height ∧ Asub2.width = Asub.width)
    ∧ ((Asub.elements_cudaMalloc = true ∨ Asub.elements_malloc = true) →
      MatGetSubMatrix A R C T Asub = none) := by
  constructor
  · intro h
    refine ⟨{ Asub with
        stride := A.stride
        off := A.off + (R * A.stride * T + C * T)
        buf := A.buf }, ?_, rfl, rfl, rfl, rfl, rfl⟩
    rw [MatGetSubMatrix, if_pos h]
  · intro h
    rw [MatGetSubMatrix, if_neg]
    intro hcon
    cases h with
    | inl hl => exact absurd hl (by simp [hcon.1])
    | inr hr => exact absurd hr (by simp [hcon.2])

/-- Claim C5: the sub-view returned by `GetSubMatrix A R C T` has the
parent's stride, its elements pointer is the parent's buffer at offset
`R*stride(A)*T + C*T` (no allocation: it shares the parent's backing
store), and its element (r, c) is element (R*T + r, C*T + c) of `A`. -/
theorem mat_c5 (A : Mat) (R C T r c : Nat) :
    (GetSubMatrix A R C T).stride = A.stride
    ∧ (GetSubMatrix A R C T).off = A.off + (R * A.stride * T + C * T)
    ∧ (GetSubMatrix A R C T).buf = A.buf
    ∧ GetElement (GetSubMatrix A R C T) r c = GetElement A (R * T + r) (C * T + c) :=
  ⟨rfl, rfl, rfl, getSubMatrix_getElement A R C T r c⟩

/-- Claim C6: initialisation (`MatInit`, `MatInitHost`, `MatInitGPU`)
establishes `stride = width`, hence `stride ≥ width`; and for a parent
with `stride ≥ width` and a tile size `T ≤ width`, the sub-view again
satisfies `stride ≥ width` (its stride is the parent's, its width is T). -/
theorem mat_c6 :
    (∀ h w : Nat, (MatInit h w).stride = (MatInit h w).width
      ∧ (MatInitHost h w).stride = (MatInitHost h w).width
      ∧ (MatInitGPU h w).stride = (MatInitGPU h w).width)
    ∧ (∀ (A : Mat) (R C T : Nat), A.width ≤ A.stride → T ≤ A.width →
        (GetSubMatrix A R C T).width = T ∧ (GetSubMatrix A R C T).stride = A.stride
          ∧ (GetSubMatrix A R C T).width ≤ (GetSubMatrix A R C T).stride) := by
  refine ⟨fun h w => ⟨rfl, rfl, rfl⟩, fun A R C T h1 h2 => ⟨rfl, rfl, ?_⟩⟩
  show T ≤ A.stride
  omega

/-- Claim C7: the launch decomposition of `MatMultGPU` is a block of
exactly `BLOCK_SIZE × BLOCK_SIZE` workers and a grid of exactly
`(width(B)/BLOCK_SIZE, height(A)/BLOCK_SIZE)` blocks; under the
divisibility precondition every output element of `C` is assigned to
exactly one worker. -/
theorem mat_c7 (A B C : Mat) (h2 : A.height = C.height) (h3 : B.width = C.width)
    (hdH : BLOCK_SIZE ∣ A.height) (hdB : BLOCK_SIZE ∣ B.width) :
    dimBlock = (BLOCK_SIZE, BLOCK_SIZE)
    ∧ dimGrid A B = (B.width / BLOCK_SIZE, A.height / BLOCK_SIZE)
    ∧ ∀ r < C.height, ∀ c < C.width,
        ∃! q : Nat × Nat × Nat × Nat,
          q ∈ launchGrid (dimGrid A B).1 (dimGrid A B).2 BLOCK_SIZE
          ∧ q.1 * BLOCK_SIZE + q.2.2.1 = r ∧ q.2.1 * BLOCK_SIZE + q.2.2.2 = c := by
  refine ⟨rfl, rfl, ?_⟩
  intro r hr c hc
  have hT : 0 < BLOCK_SIZE := by norm_num [BLOCK_SIZE]
  refine ⟨(r / BLOCK_SIZE, c / BLOCK_SIZE, r % BLOCK_SIZE, c % BLOCK_SIZE),
    ⟨?_, divmod_recompose _ _, divmod_recompose _ _⟩, ?_⟩
  · refine (mem_launchGrid _ _ _ _).mpr ⟨?_, ?_, Nat.mod_lt _ hT, Nat.mod_lt _ hT⟩
    · show r / BLOCK_SIZE < A.height / BLOCK_SIZE
      exact Nat.div_lt_div_of_lt_of_dvd hdH (by omega)
    · show c / BLOCK_SIZE < B.width / BLOCK_SIZE
      exact Nat.div_lt_div_of_lt_of_dvd hdB (by omega)
  · rintro ⟨a, b, d, e⟩ ⟨hmem, hre, hce⟩
    obtain ⟨ha', hb', hd', he'⟩ := (mem_launchGrid _ _ _ _).mp hmem
    simp only at hre hce ha' hb' hd' he'
    have e1 := div_mod_pair BLOCK_SIZE a d hd'
    have e2 := div_mod_pair BLOCK_SIZE b e he'
    rw [← hre, ← hce, e1.1, e1.2, e2.1, e2.2]

/-- Claim C8: `MatEqual A B tol` is false whenever the shapes differ,
and otherwise is true iff every element pair differs by at most `tol`
in absolute value. -/
theorem mat_c8 (A B : Mat) (tol : ℚ) :
    ((A.height ≠ B.height ∨ A.width ≠ B.width) → MatEqual A B tol = false)
    ∧ (A.height = B.height → A.width = B.width →
        (MatEqual A B tol = true ↔
          ∀ r < A.height, ∀ c < A.width, |GetElement A r c - GetElement B r c| ≤ tol)) := by
  constructor
  · intro h
    rw [MatEqual, if_neg]
    tauto
  · intro hh hw
    rw [MatEqual, if_pos ⟨hh, hw⟩]
    simp only [List.all_eq_true, List.mem_range, decide_eq_true_eq]

theorem antidiag_matMultElement (M : Nat) (X : Mat) (hXw : X.width = M)
    (hX : ∀ r < M, ∀ k < M, GetElement X r k = if r + k = M - 1 then 1 else 0)
    (Y' : Mat) (r : Nat) (hr : r < M) (c : Nat) :
    MatMultElement X Y' r c = GetElement Y' (M - 1 - r) c := by
  rw [matMultElement_eq_sum, hXw]
  rw [Finset.sum_eq_single (M - 1 - r)]
  · rw [hX r hr (M - 1 - r) (by omega), if_pos (by omega), one_mul]
  · intro j hj hne
    rw [hX r hr j (Finset.mem_range.mp hj), if_neg (by omega), zero_mul]
  · intro hnot
    exact absurd (Finset.mem_range.mpr (by omega)) hnot

/-- Claim C9: with `X` the M×M antidiagonal-identity matrix and `Y`
any M×N matrix, `X × Y` reverses `Y`'s rows, `X × (X × Y)` equals `Y`
within the comparison tolerance (`X` is its own inverse), and `X × Y`
differs from `Y` at some element whenever `Y` is not symmetric under
row reversal. -/
theorem mat_c9 (M N : Nat) (X Y : Mat)
    (hXh : X.height = M) (hXw : X.width = M)
    (hYh : Y.height = M) (hYw : Y.width = N)
    (hX : ∀ r < M, ∀ k < M, GetElement X r k = if r + k = M - 1 then 1 else 0) :
    ∃ Z Y1,
      MatMultHost X Y (MatInitHost M N) = some Z
      ∧ MatMultHost X Z (MatInitHost M N) = some Y1
      ∧ (∀ r < M, ∀ c < N, GetElement Z r c = GetElement Y (M - 1 - r) c)
      ∧ MatEqual Y1 Y ((1 : ℚ)/10^10) = true
      ∧ ((∃ r < M, ∃ c < N, GetElement Y r c ≠ GetElement Y (M - 1 - r) c) →
          ∃ r < M, ∃ c < N, GetElement Z r c ≠ GetElement Y r c) := by
  have hC0h : (MatInitHost M N).height = M := rfl
  have hC0w : (MatInitHost M N).width = N := rfl
  have hC0s : (MatInitHost M N).width ≤ (MatInitHost M N).stride := le_refl N
  have hsh1 : X.width = Y.height ∧ X.height = (MatInitHost M N).height
      ∧ Y.width = (MatInitHost M N).width := ⟨by rw [hXw, hYh], by rw [hXh]; rfl, by rw [hYw]; rfl⟩
  set Z := MatMultHostLoop X Y (MatInitHost M N) with hZdef
  have hZh : Z.height = M := by
    rw [hZdef, matMultHostLoop_mk]
    rfl
  have hZw : Z.width = N := by
    rw [hZdef, matMultHostLoop_mk]
    rfl
  have hZelem : ∀ r < M, ∀ c < N, GetElement Z r c = GetElement Y (M - 1 - r) c := by
    intro r hr c hc
    rw [hZdef, matMultHostLoop_getElement X Y (MatInitHost M N) hC0s hsh1.2.1 hsh1.2.2 r c hr hc]
    exact antidiag_matMultElement M X hXw hX Y r hr c
  have hsh2 : X.width = Z.height ∧ X.height = (MatInitHost M N).height
      ∧ Z.width = (MatInitHost M N).width := ⟨by rw [hXw, hZh], hsh1.2.1, by rw [hZw]; rfl⟩
  set Y1 := MatMultHostLoop X Z (MatInitHost M N) with hY1def
  have hY1h : Y1.height = M := by
    rw [hY1def, matMultHostLoop_mk]
    rfl
  have hY1w : Y1.width = N := by
    rw [hY1def, matMultHostLoop_mk]
    rfl
  have hY1elem : ∀ r < M, ∀ c < N, GetElement Y1 r c = GetElement Y r c := by
    intro r hr c hc
    rw [hY1def, matMultHostLoop_getElement X Z (MatInitHost M N) hC0s hsh2.2.1 hsh2.2.2 r c hr hc]
    rw [antidiag_matMultElement M X hXw hX Z r hr c]
    rw [hZelem (M - 1 - r) (by omega) c hc]
    congr 1
    omega
  refine ⟨Z, Y1, ?_, ?_, hZelem, ?_, ?_⟩
  · rw [MatMultHost, if_pos hsh1, hZdef]
  · rw [MatMultHost, if_pos hsh2, hY1def]
  · rw [MatEqual, if_pos ⟨by rw [hY1h, hYh], by rw [hY1w, hYw]⟩, hY1h, hY1w]
    simp only [List.all_eq_true, List.mem_range, decide_eq_true_eq]
    intro r hr c hc
    rw [hY1elem r hr c hc, sub_self, abs_zero]
    positivity
  · rintro ⟨r, hr, c, hc, hne⟩
    refine ⟨r, hr, c, hc, ?_⟩
    rw [hZelem r hr c hc]
    exact fun h => hne h.symm

/-- Claim C10: `MatMultHost` writes only to elements of `C` (the model's
value-passing semantics makes the three buffers pairwise disjoint and
leaves `A` and `B` untouched): the produced matrix keeps every
descriptor field of `C` and its buffer agrees with `C`'s outside the
element positions of `C`. -/
theorem mat_c10 (A B C : Mat)
    (h1 : A.width = B.height) (h2 : A.height = C.height) (h3 : B.width = C.width) :
    ∃ Cp, MatMultHost A B C = some Cp
      ∧ Cp.height = C.height ∧ Cp.width = C.width ∧ Cp.stride = C.stride
      ∧ Cp.size = C.size ∧ Cp.off = C.off
      ∧ Cp.elements_malloc = C.elements_malloc
      ∧ Cp.elements_cudaMalloc = C.elements_cudaMalloc
      ∧ ∀ j, (∀ r < C.height, ∀ c < C.width, C.off + r * C.stride + c ≠ j) →
          Cp.buf j = C.buf j := by
  refine ⟨MatMultHostLoop A B C, by rw [MatMultHost, if_pos ⟨h1, h2, h3⟩],
    by rw [matMultHostLoop_mk], by rw [matMultHostLoop_mk], by rw [matMultHostLoop_mk],
    by rw [matMultHostLoop_mk], by rw [matMultHostLoop_mk], by rw [matMultHostLoop_mk],
    by rw [matMultHostLoop_mk], ?_⟩
  intro j hj
  refine matMultHostLoop_frame A B C j ?_
  intro r hr c hc
  exact hj r (h2 ▸ hr) c (h3 ▸ hc)

/-! ### Concrete instances for the witnesses -/

/-- A host-resident matrix as produced by `MatInitHost` followed by
element-wise filling: `stride = width`, contiguous buffer `g`. -/
def wMat (h w : Nat) (g : Nat → ℚ) : Mat :=
  { height := h
    width := w
    stride := w
    size := h * w * sizeofFloat
    off := 0
    buf := g
    elements_malloc := true
    elements_cudaMalloc := false }

/-- 4×4 host matrix with entries 0, 1, ..., 15. -/
def w44 : Mat := wMat 4 4 fun i => (i : ℚ)

/-- 2×3 host matrix with entries 0, 1, ..., 5. -/
def w23 : Mat := wMat 2 3 fun i => (i : ℚ)

/-- The 2×2 antidiagonal-identity matrix. -/
def wX2 : Mat := wMat 2 2 fun i => if i = 1 ∨ i = 2 then 1 else 0

/-- A 2×3 matrix (`Y[r,c] = 3r + c`) that is not symmetric under row
reversal. -/
def wY2 : Mat := wMat 2 3 fun i => (i : ℚ)

theorem mat_c1_witness :
    (w44.stride = w44.width ∧ w44.size = w44.height * w44.width * sizeofFloat
      ∧ w44.width = w44.height ∧ BLOCK_SIZE ∣ w44.height ∧ BLOCK_SIZE ∣ w44.width)
    ∧ (∃ Cg Ch, MatMultGPU w44 w44 w44 true = some Cg ∧ MatMultHost w44 w44 w44 = some Ch ∧
        MatEqual Cg Ch ((1 : ℚ)/10^10) = true)
    ∧ (∃ Cg Ch, MatMultGPU w44 w44 w44 false = some Cg ∧ MatMultHost w44 w44 w44 = some Ch ∧
        MatEqual Cg Ch ((1 : ℚ)/10^10) = true) :=
  ⟨⟨rfl, rfl, rfl, ⟨1, rfl⟩, ⟨1, rfl⟩⟩,
   mat_c1 w44 w44 w44 rfl rfl rfl rfl rfl rfl rfl rfl rfl ⟨1, rfl⟩ ⟨1, rfl⟩ ⟨1, rfl⟩ true,
   mat_c1 w44 w44 w44 rfl rfl rfl rfl rfl rfl rfl rfl rfl ⟨1, rfl⟩ ⟨1, rfl⟩ ⟨1, rfl⟩ false⟩

theorem mat_c2_witness :
    (w44.width = w44.height ∧ w44.width ≤ w44.stride)
    ∧ ((∀ r c, MatMultElement w44 w44 r c
        = ∑ k in Finset.range w44.width, GetElement w44 r k * GetElement w44 k c)
      ∧ ∃ Cp, MatMultHost w44 w44 w44 = some Cp ∧
          ∀ r < w44.height, ∀ c < w44.width,
            GetElement Cp r c
              = ∑ k in Finset.range w44.width, GetElement w44 r k * GetElement w44 k c) :=
  ⟨⟨rfl, le_refl _⟩, mat_c2 w44 w44 w44 rfl rfl rfl (le_refl _)⟩

theorem mat_c3_witness :
    (¬(w23.width = w44.height ∧ w23.height = w44.height ∧ w44.width = w44.width))
    ∧ MatMultHost w23 w44 w44 = none ∧ MatMultGPU w23 w44 w44 false = none
    ∧ (w44.width = w44.height ∧ w44.height = w44.height ∧ w44.width = w44.width)
    ∧ (MatMultHost w44 w44 w44).isSome = true
    ∧ (MatMultGPU w44 w44 w44 false).isSome = true :=
  ⟨by decide,
   ((mat_c3 w23 w44 w44 false).1 (by decide)).1,
   ((mat_c3 w23 w44 w44 false).1 (by decide)).2,
   by decide,
   ((mat_c3 w44 w44 w44 false).2 (by decide)).1,
   ((mat_c3 w44 w44 w44 false).2 (by decide)).2⟩

theorem mat_c4_witness :
    ((MatInit 4 4).elements_cudaMalloc = false ∧ (MatInit 4 4).elements_malloc = false)
    ∧ (∃ Asub2, MatGetSubMatrix w44 1 1 2 (MatInit 4 4) = some Asub2
        ∧ Asub2.stride = w44.stride
        ∧ Asub2.off = w44.off + (1 * w44.stride * 2 + 1 * 2)
        ∧ Asub2.buf = w44.buf
        ∧ Asub2.height = (MatInit 4 4).height ∧ Asub2.width = (MatInit 4 4).width)
    ∧ w44.elements_malloc = true
    ∧ MatGetSubMatrix w44 1 1 2 w44 = none :=
  ⟨by decide,
   (mat_c4 w44 (MatInit 4 4) 1 1 2).1 (by decide),
   rfl,
   (mat_c4 w44 w44 1 1 2).2 (Or.inr rfl)⟩

theorem mat_c6_witness :
    (w44.width ≤ w44.stride ∧ 2 ≤ w44.width)
    ∧ ((GetSubMatrix w44 0 1 2).width = 2 ∧ (GetSubMatrix w44 0 1 2).stride = w44.stride
      ∧ (GetSubMatrix w44 0 1 2).width ≤ (GetSubMatrix w44 0 1 2).stride) :=
  ⟨⟨le_refl _, by decide⟩, mat_c6.2 w44 0 1 2 (le_refl _) (by decide)⟩

theorem mat_c7_witness :
    (w44.height = w44.height ∧ BLOCK_SIZE ∣ w44.height ∧ BLOCK_SIZE ∣ w44.width)
    ∧ (dimBlock = (BLOCK_SIZE, BLOCK_SIZE)
      ∧ dimGrid w44 w44 = (w44.width / BLOCK_SIZE, w44.height / BLOCK_SIZE)
      ∧ ∀ r < w44.height, ∀ c < w44.width, ∃! q : Nat × Nat × Nat × Nat,
          q ∈ launchGrid (dimGrid w44 w44).1 (dimGrid w44 w44).2 BLOCK_SIZE
          ∧ q.1 * BLOCK_SIZE + q.2.2.1 = r ∧ q.2.1 * BLOCK_SIZE + q.2.2.2 = c) :=
  ⟨⟨rfl, ⟨1, rfl⟩, ⟨1, rfl⟩⟩, mat_c7 w44 w44 w44 rfl rfl ⟨1, rfl⟩ ⟨1, rfl⟩⟩

theorem mat_c8_witness :
    (w23.height ≠ w44.height)
    ∧ MatEqual w23 w44 0 = false
    ∧ MatEqual w44 w44 0 = true :=
  ⟨by decide,
   (mat_c8 w23 w44 0).1 (Or.inl (by decide)),
   ((mat_c8 w44 w44 0).2 rfl rfl).mpr (fun r _ c _ => by simp [sub_self])⟩

theorem mat_c9_witness :
    (wX2.height = 2 ∧ wX2.width = 2 ∧ wY2.height = 2 ∧ wY2.width = 3
      ∧ ∀ r < 2, ∀ k < 2, GetElement wX2 r k = if r + k = 2 - 1 then 1 else 0)
    ∧ ∃ Z Y1,
        MatMultHost wX2 wY2 (MatInitHost 2 3) = some Z
        ∧ MatMultHost wX2 Z (MatInitHost 2 3) = some Y1
        ∧ (∀ r < 2, ∀ c < 3, GetElement Z r c = GetElement wY2 (2 - 1 - r) c)
        ∧ MatEqual Y1 wY2 ((1 : ℚ)/10^10) = true
        ∧ ((∃ r < 2, ∃ c < 3, GetElement wY2 r c ≠ GetElement wY2 (2 - 1 - r) c) →
            ∃ r < 2, ∃ c < 3, GetElement Z r c ≠ GetElement wY2 r c) :=
  ⟨⟨rfl, rfl, rfl, rfl, by decide⟩, mat_c9 2 3 wX2 wY2 rfl rfl rfl rfl (by decide)⟩

theorem mat_c10_witness :
    (w44.width = w44.height)
    ∧ ∃ Cp, MatMultHost w44 w44 w44 = some Cp
      ∧ Cp.height = w44.height ∧ Cp.width = w44.width ∧ Cp.stride = w44.stride
      ∧ Cp.size = w44.size ∧ Cp.off = w44.off
      ∧ Cp.elements_malloc = w44.elements_malloc
      ∧ Cp.elements_cudaMalloc = w44.elements_cudaMalloc
      ∧ ∀ j, (∀ r < w44.height, ∀ c < w44.width, w44.off + r * w44.stride + c ≠ j) →
          Cp.buf j = w44.buf j :=
  ⟨rfl, mat_c10 w44 w44 w44 rfl rfl rfl⟩
